import Mathlib

/-!
Verification development for the blockchain synchronizer
(`src/blockchain_sync.py`) and the database provisioning script
(`src/create_database.py`).

The Python source is shallowly embedded as executable Lean functions:
  * raw node payloads (`RawBlock`, `RawTx`, `RawVin`, `RawVout`) mirror the
    JSON dictionaries returned by the node's `getblock ... 2` call, with
    `Option` for keys the code accesses via `.get(...)`;
  * the SQLite store is a `DB` of row lists; every `INSERT` and the final
    `COMMIT` consult a failure oracle (`SqliteEnv`), modelling
    `sqlite3.Error` being raised by any individual statement; uncommitted
    work lives in a pending `DB` value that becomes durable only on commit
    (a raised error escaping the `with sqlite3.connect(...)` block rolls
    the whole pending transaction back);
  * the sync pass `sync_latest_blocks` is a recursion over the height
    range, threading the engine state and recording which heights had
    block-fetch RPCs issued (`fetched`) and which exception, if any,
    escapes to the caller (`raised`).
Numbers that are SQLite INTEGER/REAL values are modelled as `Int`
(floating point is irrelevant to every property considered here).
-/

/-- Raw `vin` entry of a transaction as returned by the node.  The code
reads every field with `.get`, so each is optional.  `script_sig` holds the
already-serialized form of the `scriptSig` object when the key is present
(the code stores `json.dumps(vin.get('scriptSig', {}))`). -/
structure RawVin where
  txid : Option String
  vout : Option Int
  sequence : Option Int
  script_sig : Option String
  deriving DecidableEq

/-- Raw `vout` entry.  `n` and `value` are accessed with `[...]` (required);
`script_pubkey` holds the serialized `scriptPubKey` blob; `addresses` is the
optional `addresses` list inside `scriptPubKey`. -/
structure RawVout where
  n : Int
  value : Int
  script_pubkey : String
  addresses : Option (List String)
  deriving DecidableEq

/-- Raw transaction from the node's block payload (verbosity 2).  `fee` is
read with `tx_data.get('fee', 0)`, hence optional at the source level. -/
structure RawTx where
  txid : String
  version : Int
  size : Int
  weight : Int
  fee : Option Int
  vin : List RawVin
  vout : List RawVout
  deriving DecidableEq

/-- Raw block payload from `getblock [hash, 2]`.  Fields read with `[...]`
in `_store_block` are required; `previousblockhash` / `nextblockhash` are
read with `.get` and so optional; a missing `tx` key is the empty list. -/
structure RawBlock where
  hash : String
  height : Int
  version : Int
  time : Int
  size : Int
  weight : Int
  merkleroot : String
  nonce : Int
  bits : String
  difficulty : Int
  previousblockhash : Option String
  nextblockhash : Option String
  tx : List RawTx
  deriving DecidableEq

/-- A row of the `blocks` table.  `id` models the SQLite rowid returned by
`cursor.lastrowid` after the block `INSERT`. -/
structure BlockRow where
  id : Nat
  hash : String
  height : Int
  version : Int
  timestamp : Int
  size : Int
  weight : Int
  merkle_root : String
  nonce : Int
  bits : String
  difficulty : Int
  previous_hash : Option String
  next_hash : Option String
  deriving DecidableEq

/-- A row of the `transactions` table.  The `fee` column is nullable in the
schema, so it is `Option Int`; what the code actually binds there is
visible in `mk_transaction_row`. -/
structure TransactionRow where
  id : Nat
  txid : String
  block_id : Nat
  version : Int
  size : Int
  weight : Int
  fee : Option Int
  deriving DecidableEq

/-- A row of the `inputs` table. -/
structure InputRow where
  transaction_id : Nat
  previous_txid : String
  previous_vout : Int
  sequence : Int
  script_sig : String
  deriving DecidableEq

/-- A row of the `outputs` table.  The `address` column is nullable. -/
structure OutputRow where
  transaction_id : Nat
  vout : Int
  value : Int
  script_pubkey : String
  address : Option String
  deriving DecidableEq

/-- The relational store: the four tables plus the rowid counters SQLite
uses to allocate `lastrowid` values for `blocks` and `transactions`. -/
structure DB where
  blocks : List BlockRow
  transactions : List TransactionRow
  inputs : List InputRow
  outputs : List OutputRow
  next_block_rowid : Nat
  next_tx_rowid : Nat
  deriving DecidableEq

/-- The empty, freshly provisioned store. -/
def emptyDB : DB := ⟨[], [], [], [], 0, 0⟩

/-- Failure oracle for the SQLite layer: `fails k` says whether the `k`-th
database statement executed by this process raises `sqlite3.Error`.  Each
`INSERT` and each `COMMIT` consumes one index. -/
structure SqliteEnv where
  fails : Nat → Bool

/-- An open cursor inside a not-yet-committed transaction: the pending
database image and the statement counter. -/
structure CursorState where
  db : DB
  tick : Nat
  deriving DecidableEq

/-- The serialized form of Python's empty dict `json.dumps({})`, used as the
default when a `vin` has no `scriptSig` key. -/
def empty_json_object : String := "\x7b\x7d"

/-- Row bound by the `INSERT INTO blocks ...` statement in `_store_block`:
required keys are passed through, `previousblockhash` / `nextblockhash` are
`.get(...)`, i.e. NULL when missing. -/
def mk_block_row (id : Nat) (b : RawBlock) : BlockRow :=
  ⟨id, b.hash, b.height, b.version, b.time, b.size, b.weight, b.merkleroot,
    b.nonce, b.bits, b.difficulty, b.previousblockhash, b.nextblockhash⟩

/-- Row bound by the `INSERT INTO transactions ...` statement in
`_store_transaction`: the fee is `tx_data.get('fee', 0)`, so a missing fee
is bound as the integer `0`, never as NULL. -/
def mk_transaction_row (id : Nat) (tx : RawTx) (block_id : Nat) : TransactionRow :=
  ⟨id, tx.txid, block_id, tx.version, tx.size, tx.weight, some (tx.fee.getD 0)⟩

/-- Row bound by the `INSERT INTO inputs ...` statement: every field is a
`.get` with a non-NULL default. -/
def mk_input_row (transaction_id : Nat) (vin : RawVin) : InputRow :=
  ⟨transaction_id, vin.txid.getD "", vin.vout.getD 0, vin.sequence.getD 0,
    vin.script_sig.getD empty_json_object⟩

/-- The address bound for an output: `scriptPubKey['addresses'][0]` when the
`addresses` key is present, NULL otherwise.  (When the key is present the
source indexes `[0]` directly; the degenerate empty-list payload, which
would raise `IndexError` in Python, is modelled by the list's head with a
`""` default and plays no role in any claim.) -/
def mapped_address : Option (List String) → Option String
  | some l => some (l.headD "")
  | none => none

/-- Row bound by the `INSERT INTO outputs ...` statement. -/
def mk_output_row (transaction_id : Nat) (v : RawVout) : OutputRow :=
  ⟨transaction_id, v.n, v.value, v.script_pubkey, mapped_address v.addresses⟩

/-- Insert one block row into the pending transaction. -/
def db_add_block (db : DB) (r : BlockRow) : DB :=
  { db with blocks := db.blocks ++ [r], next_block_rowid := db.next_block_rowid + 1 }

/-- Insert one transaction row into the pending transaction. -/
def db_add_tx (db : DB) (r : TransactionRow) : DB :=
  { db with transactions := db.transactions ++ [r], next_tx_rowid := db.next_tx_rowid + 1 }

/-- Insert one input row into the pending transaction. -/
def db_add_input (db : DB) (r : InputRow) : DB :=
  { db with inputs := db.inputs ++ [r] }

/-- Insert one output row into the pending transaction. -/
def db_add_output (db : DB) (r : OutputRow) : DB :=
  { db with outputs := db.outputs ++ [r] }

/-- The `for vin in tx_data.get('vin', [])` loop of `_store_transaction`.
A raising `INSERT` aborts the loop (the exception propagates to the
surrounding `except sqlite3.Error`), leaving the inputs already executed in
the pending transaction; the `Bool` is `false` exactly when a statement
raised. -/
def insert_inputs (env : SqliteEnv) (tx_id : Nat) :
    List RawVin → CursorState → CursorState × Bool
  | [], c => (c, true)
  | vin :: rest, c =>
    if env.fails c.tick then ({ c with tick := c.tick + 1 }, false)
    else insert_inputs env tx_id rest
      ⟨db_add_input c.db (mk_input_row tx_id vin), c.tick + 1⟩

/-- The `for vout in tx_data.get('vout', [])` loop of `_store_transaction`. -/
def insert_outputs (env : SqliteEnv) (tx_id : Nat) :
    List RawVout → CursorState → CursorState × Bool
  | [], c => (c, true)
  | v :: rest, c =>
    if env.fails c.tick then ({ c with tick := c.tick + 1 }, false)
    else insert_outputs env tx_id rest
      ⟨db_add_output c.db (mk_output_row tx_id v), c.tick + 1⟩

/-- `BlockchainSync._store_transaction`: inserts the transaction row, then
its inputs, then its outputs, on the caller's cursor.  Any
`sqlite3.Error` is caught inside this function, which then returns `False`
— the statements already executed stay in the pending transaction and are
NOT rolled back. -/
def store_transaction (env : SqliteEnv) (tx : RawTx) (block_id : Nat)
    (c : CursorState) : CursorState × Bool :=
  if env.fails c.tick then ({ c with tick := c.tick + 1 }, false)
  else
    let tx_id := c.db.next_tx_rowid
    let c1 : CursorState :=
      ⟨db_add_tx c.db (mk_transaction_row tx_id tx block_id), c.tick + 1⟩
    let r1 := insert_inputs env tx_id tx.vin c1
    if r1.2 then insert_outputs env tx_id tx.vout r1.1
    else (r1.1, false)

/-- The `for tx in block_data.get('tx', [])` loop of `_store_block`.  The
source IGNORES the boolean returned by `_store_transaction`, so the loop
always continues to the next transaction. -/
def store_transactions (env : SqliteEnv) (block_id : Nat) :
    List RawTx → CursorState → CursorState
  | [], c => c
  | tx :: rest, c =>
    store_transactions env block_id rest (store_transaction env tx block_id c).1

/-- Result of a `_store_block` call: the durable (committed) database, the
advanced statement counter, and the boolean the function returns. -/
structure StoreResult where
  db : DB
  tick : Nat
  ok : Bool
  deriving DecidableEq

/-- `BlockchainSync._store_block`: opens a connection, inserts the block
row, runs `_store_transaction` for each embedded transaction (discarding
its result), and commits.  An exception raised by the block `INSERT` or by
`COMMIT` escapes the `with` block (rolling the transaction back) and is
caught by `except sqlite3.Error`, returning `False` with the durable
database unchanged.  Errors inside `_store_transaction` are swallowed
there, so the commit still happens. -/
def store_block (env : SqliteEnv) (b : RawBlock) (db : DB) (tick : Nat) :
    StoreResult :=
  if env.fails tick then ⟨db, tick + 1, false⟩
  else
    let block_id := db.next_block_rowid
    let pending : CursorState := ⟨db_add_block db (mk_block_row block_id b), tick + 1⟩
    let c := store_transactions env block_id b.tx pending
    if env.fails c.tick then ⟨db, c.tick + 1, false⟩
    else ⟨c.db, c.tick + 1, true⟩

/-- `BlockchainSync._get_last_synced_height`: `SELECT MAX(height) FROM
blocks`, which is NULL on an empty table; the code maps that (and any
`sqlite3.Error`) to `0`. -/
def get_last_synced_height (db : DB) : Int :=
  ((db.blocks.map (·.height)).max?).getD 0

/-- Outcome, for one height, of the `getblockhash` / `getblock` pair of RPC
calls issued inside the loop body: either the fully decoded block payload,
or an exception with its `str(e)` text. -/
inductive FetchOutcome
  | ok (b : RawBlock)
  | err (msg : String)
  deriving DecidableEq

/-- The node as seen by one sync pass: the `getblockcount` outcome, the
optional `pruneheight` field of `getblockchaininfo` (`none` when the field
is absent or the call itself failed), and the per-height block fetch. -/
structure Node where
  blockcount : Except String Int
  pruneheight : Option Int
  fetch : Int → FetchOutcome

/-- `BlockchainSync._get_prune_height`: the `pruneheight` field when
present, `0` when absent or when `getblockchaininfo` raised. -/
def get_prune_height (node : Node) : Int :=
  node.pruneheight.getD 0

/-- The mutable state of a `BlockchainSync` object: the in-memory
`self.last_synced_height`, the durable store, and the statement counter of
the failure oracle. -/
structure SyncState where
  last_synced_height : Int
  db : DB
  tick : Nat
  deriving DecidableEq

/-- `BlockchainSync.__init__`: the in-memory height is computed from the
durable store once, at object construction. -/
def sync_init (db : DB) : SyncState :=
  ⟨get_last_synced_height db, db, 0⟩

/-- The error text `sync_latest_blocks` pattern-matches to recognize a
pruned block. -/
def pruned_msg : String := "Block not available (pruned data)"

/-- Python's `pruned_msg in str(e)`: substring containment. -/
def contains_pruned (msg : String) : Bool :=
  decide (pruned_msg.toList <:+: msg.toList)

/-- Python's `range(start, stop + 1)`: the heights from `start` to `stop`
inclusive, in increasing order. -/
def height_range (start stop : Int) : List Int :=
  (List.range (stop + 1 - start).toNat).map (fun (i : Nat) => start + (i : Int))

/-- The `for height in range(start_height, current_height + 1)` loop of
`sync_latest_blocks`.  Returns the engine state after the loop and the list
of heights for which block-fetch RPCs were issued.  Per height: a fetch
exception whose text contains `pruned_msg` advances
`self.last_synced_height` and continues; any other fetch exception breaks;
a successful `_store_block` advances and continues; a `False` from
`_store_block` breaks. -/
def sync_loop (env : SqliteEnv) (node : Node) :
    List Int → SyncState → SyncState × List Int
  | [], s => (s, [])
  | h :: rest, s =>
    match node.fetch h with
    | .err msg =>
      if contains_pruned msg then
        let r := sync_loop env node rest { s with last_synced_height := h }
        (r.1, h :: r.2)
      else (s, [h])
    | .ok b =>
      let st := store_block env b s.db s.tick
      if st.ok then
        let r := sync_loop env node rest ⟨h, st.db, st.tick⟩
        (r.1, h :: r.2)
      else ({ s with db := st.db, tick := st.tick }, [h])

/-- What one call of `sync_latest_blocks` produces: the new engine state,
the heights for which block fetches were issued, and the exception escaping
to the caller (`none` when the call returns normally). -/
structure PassResult where
  state : SyncState
  fetched : List Int
  raised : Option String
  deriving DecidableEq

/-- `start_height = max(self.last_synced_height + 1, prune_height)` of
`sync_latest_blocks`: computed from the object's in-memory
`self.last_synced_height`, not from the Height Tracker. -/
def start_height (node : Node) (s : SyncState) : Int :=
  max (s.last_synced_height + 1) (get_prune_height node)

/-- `BlockchainSync.sync_latest_blocks`: reads the chain height and prune
height, computes `start_height`, returns immediately when
`current_height <= start_height`, and otherwise runs the loop.  The
enclosing `try`/`except Exception` catches and only logs every exception,
so `raised` is `none` on every path. -/
def sync_latest_blocks (env : SqliteEnv) (node : Node) (s : SyncState) :
    PassResult :=
  match node.blockcount with
  | .error _ => ⟨s, [], none⟩
  | .ok current_height =>
    if current_height ≤ start_height node s then ⟨s, [], none⟩
    else
      let r := sync_loop env node (height_range (start_height node s) current_height) s
      ⟨r.1, r.2, none⟩

/-- A JSON-RPC exchange as seen by `_make_rpc_call`, parametrized by the
type of the decoded `result` payload: the POST raised a
`requests.exceptions.RequestException` (transport / HTTP error), the body
failed to parse as JSON, or a parsed body with its `error` field (outer
`Option`: key present; inner `Option`: value non-null, as the displayed
text of the error object) and its `result` field. -/
inductive RpcResponse (V : Type)
  | transport_error (msg : String)
  | decode_error (msg : String)
  | http_body (error : Option (Option String)) (result : Option V)

/-- `BlockchainSync._make_rpc_call`: transport and decode exceptions are
re-raised; a body whose `error` field is present and non-null raises
`Exception(f"RPC error: {...}")`; otherwise the `result` field is returned
(a body without a `result` key raises `KeyError`). -/
def make_rpc_call {V : Type} : RpcResponse V → Except String V
  | .transport_error m => .error m
  | .decode_error m => .error m
  | .http_body e r =>
    match e with
    | some (some msg) => .error ("RPC error: " ++ msg)
    | _ =>
      match r with
      | some v => .ok v
      | none => .error "KeyError: result"

/-- A flat filesystem: an association list from path to file content. -/
abbrev FS := List (String × String)

/-- `os.path.exists` / reading a file: the content at a path. -/
def fs_lookup : FS → String → Option String
  | [], _ => none
  | e :: rest, p => if e.1 = p then some e.2 else fs_lookup rest p

/-- `os.remove p` (as a no-op when the path is absent). -/
def fs_remove : FS → String → FS
  | [], _ => []
  | e :: rest, p => if e.1 = p then fs_remove rest p else e :: fs_remove rest p

/-- Creating / overwriting the file at `p` with content `v`. -/
def fs_set (fs : FS) (p : String) (v : String) : FS :=
  fs_remove fs p ++ [(p, v)]

/-- The content of a freshly provisioned SQLite database file built by
executing `schema`. -/
def db_file_of_schema (schema : String) : String :=
  "sqlite3:" ++ schema

/-- `create_database(schema_file, db_name)` of `src/create_database.py`:
the target name defaults to `bitcoin.db`; an existing file at the target is
removed first; then the schema file is read (a failing `open` is caught,
leaving the target absent) and the database is created from it. -/
def create_database (schema_file : String) (db_name : Option String)
    (fs : FS) : FS :=
  let name := db_name.getD "bitcoin.db"
  let fs1 := if (fs_lookup fs name).isSome then fs_remove fs name else fs
  match fs_lookup fs1 schema_file with
  | none => fs1
  | some schema => fs_set fs1 name (db_file_of_schema schema)

/-! ### Concrete sample data used by witnesses and counterexamples -/

/-- An oracle under which no database statement ever raises. -/
def env_ok : SqliteEnv := ⟨fun _ => false⟩

/-- An oracle under which exactly the statement with index 1 raises
`sqlite3.Error` (in the `C1` scenario: the transaction `INSERT` that
follows the block `INSERT`). -/
def env_fail1 : SqliteEnv := ⟨fun k => k == 1⟩

/-- A sample input of a transaction. -/
def vin1 : RawVin := ⟨some "prevtx", some 0, some 4294967295, some "sig1"⟩

/-- A sample output carrying a decoded address. -/
def vout1 : RawVout := ⟨0, 5000000000, "spk1", some ["addr1"]⟩

/-- A sample transaction with an explicit fee. -/
def tx1 : RawTx := ⟨"t1", 2, 250, 1000, some 141, [vin1], [vout1]⟩

/-- A sample transaction WITHOUT a `fee` key and whose output's
`scriptPubKey` has no `addresses` key. -/
def tx_nofee : RawTx := ⟨"t2", 1, 200, 800, none, [], [⟨0, 1200, "spk2", none⟩]⟩

/-- A minimal block at a given height with no transactions. -/
def simple_block (h : Int) : RawBlock :=
  ⟨"b" ++ toString h, h, 536870912, 1600000000 + h, 285, 1140,
    "mr" ++ toString h, 497822588, "1d00ffff", 1, some ("b" ++ toString (h - 1)),
    none, []⟩

/-- The block at height 7 used as the `C1` failing input: one embedded
transaction. -/
def blkC1 : RawBlock :=
  ⟨"b7", 7, 536870912, 1600000007, 400, 1600, "mr7", 7, "1d00ffff", 1,
    some "b6", none, [tx1]⟩

/-- A node whose chain height is 12, with no pruning, serving a simple
block at every height. -/
def node12 : Node :=
  ⟨.ok 12, none, fun h => .ok (simple_block h)⟩

/-- A node whose chain height is 5 and whose block fetch at height 2 raises
a non-pruning error. -/
def node_err2 : Node :=
  ⟨.ok 5, none, fun h => if h == 2 then .err "boom" else .ok (simple_block h)⟩

/-- Engine state whose in-memory height (10) disagrees with the durable
store (empty, so the Height Tracker reports 0) — reachable, e.g., after
in-process pruning skips. -/
def s_mem10 : SyncState := ⟨10, emptyDB, 0⟩

/-- Engine state at the start of a fresh process over an empty store. -/
def s_fresh : SyncState := sync_init emptyDB

/-- The rowids of the stored blocks. -/
def block_ids (db : DB) : List Nat := db.blocks.map (·.id)

/-- The rowids of the stored transactions. -/
def tx_ids (db : DB) : List Nat := db.transactions.map (·.id)

/-- Referential integrity of the store: every transaction row references an
existing block row and every input/output row references an existing
transaction row. -/
def ref_integrity (db : DB) : Prop :=
  (∀ t ∈ db.transactions, t.block_id ∈ block_ids db) ∧
  (∀ i ∈ db.inputs, i.transaction_id ∈ tx_ids db) ∧
  (∀ o ∈ db.outputs, o.transaction_id ∈ tx_ids db)

/-- A per-height failure of the loop body that is NOT the pruning-specific
one: either a block-fetch exception whose text does not contain the pruned
marker, or `_store_block` returning `False`. -/
def step_fails_nonpruned (env : SqliteEnv) (node : Node) (h : Int)
    (s : SyncState) : Prop :=
  (∃ msg, node.fetch h = .err msg ∧ contains_pruned msg = false) ∨
  (∃ b, node.fetch h = .ok b ∧ (store_block env b s.db s.tick).ok = false)

/-- A node that reports a prune height of 3 and serves a pruned-data error
below it. -/
def node_pruned : Node :=
  ⟨.ok 5, some 3,
    fun h =>
      if h ≤ 2 then .err "RPC error: Block not available (pruned data)"
      else .ok (simple_block h)⟩

/-- A block at height 3 whose only transaction is `tx_nofee`. -/
def blk_nofee : RawBlock :=
  ⟨"b3", 3, 1, 1600000003, 300, 1200, "mr3", 3, "1d00ffff", 1, some "b2",
    none, [tx_nofee]⟩

/-- A store holding exactly the chain's genesis block, which sits at
height 0. -/
def db_genesis : DB :=
  ⟨[⟨0, "genesishash", 0, 1, 1231006505, 285, 1140, "mrgen", 2083236893,
      "1d00ffff", 1, none, none⟩], [], [], [], 1, 0⟩

/-- A filesystem holding a previously synchronized database file and a
schema file. -/
def fs_sample : FS :=
  [("bitcoin.db", "old synchronized data"), ("schema.sql", "CREATE TABLE blocks")]

/-! ### Theorems -/

/-- Claim C1 — status: code_bug.  The spec requires `storeBlock` to commit
the block row and all nested transaction rows as one atomic unit.  The
code violates this: `_store_block` ignores the boolean returned by
`_store_transaction`, which swallows `sqlite3.Error` internally, so when
the transaction `INSERT` for the single embedded transaction of the block
at height 7 raises (statement index 1), `_store_block` still commits and
returns `True`: the committed store holds the block row with NONE of its
transaction rows, and the Height Tracker subsequently reports height 7 as
synced although its block is only partially committed. -/
theorem c1_store_block_not_atomic :
    (store_block env_fail1 blkC1 emptyDB 0).ok = true ∧
    (store_block env_fail1 blkC1 emptyDB 0).db.blocks.map (·.height) = [7] ∧
    (store_block env_fail1 blkC1 emptyDB 0).db.transactions = [] ∧
    blkC1.tx ≠ [] ∧
    get_last_synced_height (store_block env_fail1 blkC1 emptyDB 0).db = 7 := by
  refine ⟨by decide, by decide, by decide, by decide, by decide⟩

/-- Claim C2, counterexample.  The claim says every sync pass begins by
recomputing `lastSynced` from durable store state.  In the code the pass
uses the in-memory `self.last_synced_height` (recomputed only in
`__init__`): starting from an engine whose in-memory height is 10 over an
EMPTY durable store (Height Tracker value 0), the pass fetches only
heights 11 and 12, not 1..12, so it does not behave like a pass that
recomputed `lastSynced` from the store. -/
theorem c2_counterexample :
    get_last_synced_height s_mem10.db = 0 ∧
    s_mem10.last_synced_height = 10 ∧
    (sync_latest_blocks env_ok node12 s_mem10).fetched = [11, 12] ∧
    (sync_latest_blocks env_ok node12
        { s_mem10 with last_synced_height := get_last_synced_height s_mem10.db }).fetched
      = [1, 2, 3, 4, 5, 6, 7, 8, 9, 10, 11, 12] ∧
    sync_latest_blocks env_ok node12 s_mem10 ≠
      sync_latest_blocks env_ok node12
        { s_mem10 with last_synced_height := get_last_synced_height s_mem10.db } := by
  refine ⟨by decide, by decide, by decide, by decide, by decide⟩

/-- Claim C2, amended: `lastSynced` is recomputed from durable store state
via the Height Tracker only when the synchronizer object is constructed
(i.e. once per process start); each sync pass computes its start height
from the object's in-memory `self.last_synced_height`. -/
theorem c2_amended_init_recomputes (db : DB) (node : Node) (s : SyncState) :
    (sync_init db).last_synced_height = get_last_synced_height db ∧
    (sync_init db).db = db ∧
    start_height node s = max (s.last_synced_height + 1) (get_prune_height node) :=
  ⟨rfl, rfl, rfl⟩

/-- Claim C6, counterexample.  The claim says a transaction's missing fee is
stored as null.  The code binds `tx_data.get('fee', 0)`: for the block
whose only transaction has no `fee` key, the committed transaction row
carries the sentinel fee 0, not NULL. -/
theorem c6_counterexample :
    tx_nofee.fee = none ∧
    (store_block env_ok blk_nofee emptyDB 0).ok = true ∧
    (store_block env_ok blk_nofee emptyDB 0).db.transactions.map (·.fee) = [some 0] := by
  refine ⟨by decide, by decide, by decide⟩

/-- Claim C7, counterexample.  The claim says the empty-store sentinel is
strictly below the genesis block's height and distinct from any real
stored height.  The code returns 0 for an empty store, and 0 is exactly
the height of the chain's genesis block: a store holding the genesis block
row (height 0) yields the very same `lastSyncedHeight` as the empty store,
so the sentinel is neither strictly below the genesis height nor distinct
from a real stored height. -/
theorem c7_counterexample :
    get_last_synced_height emptyDB = 0 ∧
    db_genesis.blocks.map (·.height) = [0] ∧
    get_last_synced_height db_genesis = 0 ∧
    ¬ get_last_synced_height emptyDB < 0 := by
  refine ⟨by decide, by decide, by decide, by decide⟩

/-- Claim C7, amended: `lastSyncedHeight()` returns the maximum height
present in the blocks table; when the store is empty it returns 0 — which
is the genesis block's own height (also reachable as the height of a
stored genesis row), not a "genesis-minus-one" value strictly below every
storable height. -/
theorem c7_amended_max_height (db : DB) (hne : db.blocks ≠ []) :
    get_last_synced_height db ∈ db.blocks.map (·.height) ∧
    (∀ b ∈ db.blocks, b.height ≤ get_last_synced_height db) ∧
    get_last_synced_height emptyDB = 0 := by
  cases hm : (db.blocks.map (·.height)).max? with
  | none =>
    rw [List.max?_eq_none_iff, List.map_eq_nil_iff] at hm
    exact absurd hm hne
  | some m =>
    have hdb : get_last_synced_height db = m := by
      simp [get_last_synced_height, hm]
    refine ⟨?_, ?_, by decide⟩
    · rw [hdb]
      exact List.max?_mem max_choice hm
    · intro b hb
      rw [hdb]
      exact (List.max?_le_iff (fun _ _ _ => max_le_iff) hm).1 le_rfl _
        (List.mem_map_of_mem _ hb)

/-- Closed witness for `c7_amended_max_height`, at the store holding only
the genesis block. -/
theorem c7_witness :
    get_last_synced_height db_genesis ∈ db_genesis.blocks.map (·.height) ∧
    (∀ b ∈ db_genesis.blocks, b.height ≤ get_last_synced_height db_genesis) ∧
    get_last_synced_height emptyDB = 0 :=
  c7_amended_max_height db_genesis (by decide)

/-- Claim C9 — status: confirmed.  `_make_rpc_call` either returns the
response's `result` field or raises; when the body's `error` field is
present and non-null it raises with the message `"RPC error: " ++ <error
text>`, so the node's raw error text is carried verbatim (as a suffix),
and any substring of the node's text — in particular the pruned-data
marker — remains a substring of the surfaced message. -/
theorem c9_rpc_error_surfaced (V : Type) (e : Option (Option String))
    (r : Option V) (msg : String) (he : e = some (some msg)) :
    make_rpc_call (RpcResponse.http_body e r) = .error ("RPC error: " ++ msg) ∧
    (∃ pre, "RPC error: " ++ msg = pre ++ msg) ∧
    (contains_pruned msg = true → contains_pruned ("RPC error: " ++ msg) = true) ∧
    (∀ (resp : RpcResponse V) (v : V), make_rpc_call resp = .ok v →
      ∃ ef, resp = RpcResponse.http_body ef (some v) ∧ ∀ m, ef ≠ some (some m)) := by
  subst he
  refine ⟨rfl, ⟨"RPC error: ", rfl⟩, ?_, ?_⟩
  · intro h
    obtain ⟨s, t, hst⟩ := of_decide_eq_true h
    apply decide_eq_true
    refine ⟨"RPC error: ".toList ++ s, t, ?_⟩
    show ("RPC error: ".toList ++ s) ++ pruned_msg.toList ++ t
        = ("RPC error: " ++ msg).toList
    rw [show ("RPC error: " ++ msg).toList = "RPC error: ".toList ++ msg.toList from rfl,
      ← hst]
    simp [List.append_assoc]
  · intro resp v hok
    cases resp with
    | transport_error m => simp [make_rpc_call] at hok
    | decode_error m => simp [make_rpc_call] at hok
    | http_body ef rf =>
      cases ef with
      | none =>
        cases rf with
        | none => simp [make_rpc_call] at hok
        | some v' =>
          simp [make_rpc_call] at hok
          subst hok
          exact ⟨none, rfl, by simp⟩
      | some eo =>
        cases eo with
        | none =>
          cases rf with
          | none => simp [make_rpc_call] at hok
          | some v' =>
            simp [make_rpc_call] at hok
            subst hok
            exact ⟨some none, rfl, by simp⟩
        | some m => simp [make_rpc_call] at hok

/-- Closed witness for `c9_rpc_error_surfaced`: the node answers with a
non-null `error` field carrying the pruned-data text. -/
theorem c9_witness :
    make_rpc_call (RpcResponse.http_body (V := Int) (some (some pruned_msg)) none)
      = .error ("RPC error: " ++ pruned_msg) ∧
    (∃ pre, "RPC error: " ++ pruned_msg = pre ++ pruned_msg) ∧
    (contains_pruned pruned_msg = true →
      contains_pruned ("RPC error: " ++ pruned_msg) = true) ∧
    (∀ (resp : RpcResponse Int) (v : Int), make_rpc_call resp = .ok v →
      ∃ ef, resp = RpcResponse.http_body ef (some v) ∧ ∀ m, ef ≠ some (some m)) :=
  c9_rpc_error_surfaced Int (some (some pruned_msg)) none pruned_msg rfl

/-- After removing `p`, looking up `p` finds nothing. -/
theorem fs_lookup_remove_self (fs : FS) (p : String) :
    fs_lookup (fs_remove fs p) p = none := by
  induction fs with
  | nil => rfl
  | cons e rest ih =>
    by_cases hq : e.1 = p <;> simp [fs_remove, fs_lookup, hq, ih]

/-- Looking up through an append skips a left part that misses the path. -/
theorem fs_lookup_append (l1 l2 : FS) (p : String)
    (h : fs_lookup l1 p = none) :
    fs_lookup (l1 ++ l2) p = fs_lookup l2 p := by
  induction l1 with
  | nil => rfl
  | cons e rest ih =>
    by_cases hq : e.1 = p
    · simp [fs_lookup, hq] at h
    · simp [fs_lookup, hq] at h ⊢
      exact ih h

/-- Writing a file then reading it back yields the written content. -/
theorem fs_lookup_set_self (fs : FS) (p v : String) :
    fs_lookup (fs_set fs p v) p = some v := by
  rw [fs_set, fs_lookup_append _ _ _ (fs_lookup_remove_self fs p)]
  simp [fs_lookup]

/-- Claim C10 — status: confirmed.  When a file already exists at the target
path, `create_database` removes it before creating anything, so the result
is the same as if the old file had never been there, and the content left
at the target is determined solely by the schema file (the newly built
database when the schema is readable, nothing at all otherwise) — any
previously synchronized data at that path is destroyed. -/
theorem c10_create_database_destroys (sf : String) (dbn : Option String)
    (fs : FS) (old : String)
    (h : fs_lookup fs (dbn.getD "bitcoin.db") = some old) :
    create_database sf dbn fs
      = create_database sf dbn (fs_remove fs (dbn.getD "bitcoin.db")) ∧
    fs_lookup (create_database sf dbn fs) (dbn.getD "bitcoin.db")
      = (fs_lookup (fs_remove fs (dbn.getD "bitcoin.db")) sf).map db_file_of_schema := by
  have h2 := fs_lookup_remove_self fs (dbn.getD "bitcoin.db")
  constructor
  · simp only [create_database, h, h2, Option.isSome_some, Option.isSome_none,
      if_true, Bool.false_eq_true, if_false]
  · simp only [create_database, h, h2, Option.isSome_some, Option.isSome_none,
      if_true, Bool.false_eq_true, if_false]
    cases hsf : fs_lookup (fs_remove fs (dbn.getD "bitcoin.db")) sf with
    | none => simpa using h2
    | some schema => simp [fs_lookup_set_self]

/-- Closed witness for `c10_create_database_destroys`: a filesystem with a
previously synchronized `bitcoin.db` and a readable schema file. -/
theorem c10_witness :
    create_database "schema.sql" none fs_sample
      = create_database "schema.sql" none
          (fs_remove fs_sample ((none : Option String).getD "bitcoin.db")) ∧
    fs_lookup (create_database "schema.sql" none fs_sample)
        ((none : Option String).getD "bitcoin.db")
      = (fs_lookup (fs_remove fs_sample ((none : Option String).getD "bitcoin.db"))
          "schema.sql").map db_file_of_schema :=
  c10_create_database_destroys "schema.sql" none fs_sample
    "old synchronized data" (by decide)

/-- Claim C4 — status: confirmed.  A per-height fetch failure whose text
contains the pruned-data marker makes the loop advance the tracked height
to that height and continue with the remaining heights, handing on a state
whose database is untouched (no rows stored for the skipped height). -/
theorem c4_pruned_skip (env : SqliteEnv) (node : Node) (h : Int)
    (rest : List Int) (s : SyncState) (msg : String)
    (hf : node.fetch h = .err msg) (hp : contains_pruned msg = true) :
    sync_loop env node (h :: rest) s =
      ((sync_loop env node rest { s with last_synced_height := h }).1,
        h :: (sync_loop env node rest { s with last_synced_height := h }).2) ∧
    ({ s with last_synced_height := h } : SyncState).db = s.db ∧
    ({ s with last_synced_height := h } : SyncState).last_synced_height = h := by
  refine ⟨?_, rfl, rfl⟩
  simp [sync_loop, hf, hp]

/-- Closed witness for `c4_pruned_skip`: a node answering height 1 with the
pruned-data error. -/
theorem c4_witness :
    sync_loop env_ok node_pruned (1 :: [2]) s_fresh =
      ((sync_loop env_ok node_pruned [2] { s_fresh with last_synced_height := 1 }).1,
        1 :: (sync_loop env_ok node_pruned [2] { s_fresh with last_synced_height := 1 }).2) ∧
    ({ s_fresh with last_synced_height := 1 } : SyncState).db = s_fresh.db ∧
    ({ s_fresh with last_synced_height := 1 } : SyncState).last_synced_height = 1 :=
  c4_pruned_skip env_ok node_pruned 1 [2] s_fresh
    "RPC error: Block not available (pruned data)" (by decide) (by decide)

/-- `sync_latest_blocks` never lets an exception escape to its caller: the
enclosing `try`/`except Exception` only logs. -/
theorem sync_raised_none (env : SqliteEnv) (node : Node) (s : SyncState) :
    (sync_latest_blocks env node s).raised = none := by
  unfold sync_latest_blocks
  cases node.blockcount with
  | error e => rfl
  | ok c => dsimp only; split <;> rfl

/-- When `_store_block` returns `False`, the durable database is unchanged
(the transaction was rolled back, or nothing was ever committed). -/
theorem store_block_db_of_not_ok (env : SqliteEnv) (b : RawBlock) (db : DB)
    (t : Nat) (h : (store_block env b db t).ok = false) :
    (store_block env b db t).db = db := by
  unfold store_block at h ⊢
  cases h1 : env.fails t with
  | true => simp [h1]
  | false =>
    simp only [h1, Bool.false_eq_true, if_false] at h ⊢
    cases h2 : env.fails (store_transactions env db.next_block_rowid b.tx
        ⟨db_add_block db (mk_block_row db.next_block_rowid b), t + 1⟩).tick with
    | true => simp [h2]
    | false => simp [h2] at h

/-- Claim C5, amended: a per-height failure other than the pruning-specific
one stops the loop immediately — the tracked height stays at the last
successfully advanced height, the durable store is left as it was, and no
further heights are attempted — but the error is only logged, never
propagated to the caller of the pass (`sync_latest_blocks` returns
normally); the next invocation resumes from the object's in-memory tracked
height rather than recomputing it from the Height Tracker. -/
theorem c5_amended_stop_and_swallow (env : SqliteEnv) (node : Node) (h : Int)
    (rest : List Int) (s : SyncState)
    (hf : step_fails_nonpruned env node h s) :
    (sync_loop env node (h :: rest) s).1.last_synced_height = s.last_synced_height ∧
    (sync_loop env node (h :: rest) s).1.db = s.db ∧
    (sync_loop env node (h :: rest) s).2 = [h] ∧
    (sync_latest_blocks env node s).raised = none := by
  have hraised := sync_raised_none env node s
  rcases hf with ⟨msg, hm, hnp⟩ | ⟨b, hb, hsb⟩
  · refine ⟨?_, ?_, ?_, hraised⟩ <;> simp [sync_loop, hm, hnp]
  · have hdb := store_block_db_of_not_ok env b s.db s.tick hsb
    refine ⟨?_, ?_, ?_, hraised⟩ <;> simp [sync_loop, hb, hsb, hdb]

/-- Closed witness for `c5_amended_stop_and_swallow`: the non-pruning fetch
failure at height 2. -/
theorem c5_witness :
    (sync_loop env_ok node_err2 (2 :: [3, 4, 5]) s_fresh).1.last_synced_height
      = s_fresh.last_synced_height ∧
    (sync_loop env_ok node_err2 (2 :: [3, 4, 5]) s_fresh).1.db = s_fresh.db ∧
    (sync_loop env_ok node_err2 (2 :: [3, 4, 5]) s_fresh).2 = [2] ∧
    (sync_latest_blocks env_ok node_err2 s_fresh).raised = none :=
  c5_amended_stop_and_swallow env_ok node_err2 2 [3, 4, 5] s_fresh
    (Or.inl ⟨"boom", by decide, by decide⟩)

/-- Claim C5, counterexample.  In the pass over heights 1..5 where the fetch
at height 2 fails with a non-pruning error, the loop stops at height 1 —
but `sync_latest_blocks` returns normally (`raised = none`): the error is
logged and swallowed, not surfaced to the caller as the claim states. -/
theorem c5_counterexample :
    node_err2.fetch 2 = .err "boom" ∧
    contains_pruned "boom" = false ∧
    (sync_latest_blocks env_ok node_err2 s_fresh).fetched = [1, 2] ∧
    (sync_latest_blocks env_ok node_err2 s_fresh).state.last_synced_height = 1 ∧
    (sync_latest_blocks env_ok node_err2 s_fresh).raised = none := by
  refine ⟨by decide, by decide, by decide, by decide, by decide⟩

/-- The heights enumerated by `range(start, stop + 1)` are exactly those
between `start` and `stop` inclusive. -/
theorem height_range_mem (start stop h : Int) :
    h ∈ height_range start stop ↔ start ≤ h ∧ h ≤ stop := by
  simp only [height_range, List.mem_map, List.mem_range]
  constructor
  · rintro ⟨i, hi, rfl⟩
    omega
  · rintro ⟨h1, h2⟩
    exact ⟨(h - start).toNat, by omega, by omega⟩

/-- The heights enumerated by `range(start, stop + 1)` are strictly
increasing. -/
theorem height_range_sorted (start stop : Int) :
    List.Pairwise (· < ·) (height_range start stop) := by
  unfold height_range
  exact List.Pairwise.map _ (fun a b hab => by omega) (List.sorted_lt_range _)

/-- The heights for which the loop issued block fetches form a prefix of
the height range handed to it (the loop visits heights in order and stops
at the first non-skippable failure). -/
theorem sync_loop_fetched_take (env : SqliteEnv) (node : Node) :
    ∀ (l : List Int) (s : SyncState),
      ∃ k, (sync_loop env node l s).2 = l.take k := by
  intro l
  induction l with
  | nil => exact fun s => ⟨0, rfl⟩
  | cons h rest ih =>
    intro s
    cases hf : node.fetch h with
    | err msg =>
      cases hp : contains_pruned msg with
      | true =>
        obtain ⟨k, hk⟩ := ih { s with last_synced_height := h }
        exact ⟨k + 1, by simp [sync_loop, hf, hp, hk]⟩
      | false => exact ⟨1, by simp [sync_loop, hf, hp]⟩
    | ok b =>
      cases hsb : (store_block env b s.db s.tick).ok with
      | true =>
        obtain ⟨k, hk⟩ := ih ⟨h, (store_block env b s.db s.tick).db,
          (store_block env b s.db s.tick).tick⟩
        exact ⟨k + 1, by simp [sync_loop, hf, hsb, hk]⟩
      | false => exact ⟨1, by simp [sync_loop, hf, hsb]⟩

/-- Under an oracle that never fails, `_store_block` returns `True`. -/
theorem store_block_ok_env (env : SqliteEnv) (henv : ∀ n, env.fails n = false)
    (b : RawBlock) (db : DB) (t : Nat) : (store_block env b db t).ok = true := by
  simp [store_block, henv]

/-- When no database statement fails and the node serves every height, the
loop visits the whole range. -/
theorem sync_loop_fetched_all (env : SqliteEnv) (node : Node)
    (henv : ∀ n, env.fails n = false)
    (hnode : ∀ h : Int, ∃ b, node.fetch h = .ok b) :
    ∀ (l : List Int) (s : SyncState), (sync_loop env node l s).2 = l := by
  intro l
  induction l with
  | nil => exact fun s => rfl
  | cons h rest ih =>
    intro s
    obtain ⟨b, hb⟩ := hnode h
    simp [sync_loop, hb, store_block_ok_env env henv, ih]

/-- Claim C3 — status: confirmed.  Each pass computes `start_height =
max(lastSynced + 1, prune_height)`; when `current <= start_height` it
returns at once with nothing fetched and the state untouched; otherwise
the iteration space is exactly the heights from `start_height` to
`current` inclusive in strictly increasing order — the heights actually
fetched are always an order-preserving prefix of it, and the whole range
when nothing fails. -/
theorem c3_sync_range (env : SqliteEnv) (node : Node) (s : SyncState)
    (current : Int) (hbc : node.blockcount = .ok current) :
    (current ≤ start_height node s → sync_latest_blocks env node s = ⟨s, [], none⟩) ∧
    (∀ h : Int, h ∈ height_range (start_height node s) current ↔
      start_height node s ≤ h ∧ h ≤ current) ∧
    List.Pairwise (· < ·) (height_range (start_height node s) current) ∧
    (∃ k, (sync_latest_blocks env node s).fetched
        = (height_range (start_height node s) current).take k) ∧
    ((∀ n, env.fails n = false) → (∀ h : Int, ∃ b, node.fetch h = .ok b) →
      ¬ current ≤ start_height node s →
      (sync_latest_blocks env node s).fetched
        = height_range (start_height node s) current) := by
  refine ⟨?_, fun h => height_range_mem _ _ _, height_range_sorted _ _, ?_, ?_⟩
  · intro hle
    simp [sync_latest_blocks, hbc, hle]
  · by_cases hle : current ≤ start_height node s
    · exact ⟨0, by simp [sync_latest_blocks, hbc, hle]⟩
    · obtain ⟨k, hk⟩ := sync_loop_fetched_take env node
        (height_range (start_height node s) current) s
      exact ⟨k, by simp [sync_latest_blocks, hbc, hle, hk]⟩
  · intro henv hnode hle
    simp [sync_latest_blocks, hbc, hle,
      sync_loop_fetched_all env node henv hnode]

/-- Closed witness for `c3_sync_range`, at the node of height 12 and the
engine whose in-memory height is 10. -/
theorem c3_witness :
    (12 ≤ start_height node12 s_mem10 →
      sync_latest_blocks env_ok node12 s_mem10 = ⟨s_mem10, [], none⟩) ∧
    (∀ h : Int, h ∈ height_range (start_height node12 s_mem10) 12 ↔
      start_height node12 s_mem10 ≤ h ∧ h ≤ 12) ∧
    List.Pairwise (· < ·) (height_range (start_height node12 s_mem10) 12) ∧
    (∃ k, (sync_latest_blocks env_ok node12 s_mem10).fetched
        = (height_range (start_height node12 s_mem10) 12).take k) ∧
    ((∀ n, env_ok.fails n = false) → (∀ h : Int, ∃ b, node12.fetch h = .ok b) →
      ¬ 12 ≤ start_height node12 s_mem10 →
      (sync_latest_blocks env_ok node12 s_mem10).fetched
        = height_range (start_height node12 s_mem10) 12) :=
  c3_sync_range env_ok node12 s_mem10 12 rfl

/-- Executing the `vin` loop only appends input rows built by
`mk_input_row` for members of the list; every other table is untouched. -/
theorem insert_inputs_spec (env : SqliteEnv) (t : Nat) :
    ∀ (l : List RawVin) (c : CursorState),
      (insert_inputs env t l c).1.db.blocks = c.db.blocks ∧
      (insert_inputs env t l c).1.db.transactions = c.db.transactions ∧
      (insert_inputs env t l c).1.db.outputs = c.db.outputs ∧
      (insert_inputs env t l c).1.db.next_block_rowid = c.db.next_block_rowid ∧
      (insert_inputs env t l c).1.db.next_tx_rowid = c.db.next_tx_rowid ∧
      ∃ new, (insert_inputs env t l c).1.db.inputs = c.db.inputs ++ new ∧
        ∀ r ∈ new, ∃ vin ∈ l, r = mk_input_row t vin := by
  intro l
  induction l with
  | nil =>
    intro c
    exact ⟨rfl, rfl, rfl, rfl, rfl, [], by simp [insert_inputs], by simp⟩
  | cons vin rest ih =>
    intro c
    cases hf : env.fails c.tick with
    | true =>
      refine ⟨?_, ?_, ?_, ?_, ?_, [], ?_, by simp⟩ <;> simp [insert_inputs, hf]
    | false =>
      obtain ⟨h1, h2, h3, h4, h5, new, hnew, hmem⟩ :=
        ih ⟨db_add_input c.db (mk_input_row t vin), c.tick + 1⟩
      simp only [insert_inputs, hf, Bool.false_eq_true, if_false]
      refine ⟨h1, h2, h3, h4, h5, mk_input_row t vin :: new, ?_, ?_⟩
      · rw [hnew]
        simp [db_add_input, List.append_assoc]
      · intro r hr
        rcases List.mem_cons.mp hr with h | h
        · exact ⟨vin, List.mem_cons_self _ _, h⟩
        · obtain ⟨vin', hv', he⟩ := hmem r h
          exact ⟨vin', List.mem_cons_of_mem _ hv', he⟩

/-- Executing the `vout` loop only appends output rows built by
`mk_output_row` for members of the list; every other table is untouched. -/
theorem insert_outputs_spec (env : SqliteEnv) (t : Nat) :
    ∀ (l : List RawVout) (c : CursorState),
      (insert_outputs env t l c).1.db.blocks = c.db.blocks ∧
      (insert_outputs env t l c).1.db.transactions = c.db.transactions ∧
      (insert_outputs env t l c).1.db.inputs = c.db.inputs ∧
      (insert_outputs env t l c).1.db.next_block_rowid = c.db.next_block_rowid ∧
      (insert_outputs env t l c).1.db.next_tx_rowid = c.db.next_tx_rowid ∧
      ∃ new, (insert_outputs env t l c).1.db.outputs = c.db.outputs ++ new ∧
        ∀ r ∈ new, ∃ v ∈ l, r = mk_output_row t v := by
  intro l
  induction l with
  | nil =>
    intro c
    exact ⟨rfl, rfl, rfl, rfl, rfl, [], by simp [insert_outputs], by simp⟩
  | cons v rest ih =>
    intro c
    cases hf : env.fails c.tick with
    | true =>
      refine ⟨?_, ?_, ?_, ?_, ?_, [], ?_, by simp⟩ <;> simp [insert_outputs, hf]
    | false =>
      obtain ⟨h1, h2, h3, h4, h5, new, hnew, hmem⟩ :=
        ih ⟨db_add_output c.db (mk_output_row t v), c.tick + 1⟩
      simp only [insert_outputs, hf, Bool.false_eq_true, if_false]
      refine ⟨h1, h2, h3, h4, h5, mk_output_row t v :: new, ?_, ?_⟩
      · rw [hnew]
        simp [db_add_output, List.append_assoc]
      · intro r hr
        rcases List.mem_cons.mp hr with h | h
        · exact ⟨v, List.mem_cons_self _ _, h⟩
        · obtain ⟨v', hv', he⟩ := hmem r h
          exact ⟨v', List.mem_cons_of_mem _ hv', he⟩

/-- One `_store_transaction` call either leaves the pending database
unchanged (the transaction `INSERT` raised) or appends exactly one
transaction row plus input/output rows for (some of) the transaction's
`vin`/`vout` entries, all referencing the fresh transaction rowid. -/
theorem store_transaction_spec (env : SqliteEnv) (tx : RawTx) (bid : Nat)
    (c : CursorState) :
    (store_transaction env tx bid c).1.db = c.db ∨
    ((store_transaction env tx bid c).1.db.blocks = c.db.blocks ∧
      (store_transaction env tx bid c).1.db.next_block_rowid = c.db.next_block_rowid ∧
      (store_transaction env tx bid c).1.db.transactions
        = c.db.transactions ++ [mk_transaction_row c.db.next_tx_rowid tx bid] ∧
      (∃ newi, (store_transaction env tx bid c).1.db.inputs = c.db.inputs ++ newi ∧
        ∀ r ∈ newi, ∃ vin ∈ tx.vin, r = mk_input_row c.db.next_tx_rowid vin) ∧
      (∃ newo, (store_transaction env tx bid c).1.db.outputs = c.db.outputs ++ newo ∧
        ∀ r ∈ newo, ∃ v ∈ tx.vout, r = mk_output_row c.db.next_tx_rowid v)) := by
  cases hf : env.fails c.tick with
  | true => exact Or.inl (by simp [store_transaction, hf])
  | false =>
    right
    obtain ⟨i1, i2, i3, i4, i5, newi, hnewi, hmemi⟩ :=
      insert_inputs_spec env c.db.next_tx_rowid tx.vin
        ⟨db_add_tx c.db (mk_transaction_row c.db.next_tx_rowid tx bid), c.tick + 1⟩
    simp only [store_transaction, hf, Bool.false_eq_true, if_false]
    cases hr2 : (insert_inputs env c.db.next_tx_rowid tx.vin
        ⟨db_add_tx c.db (mk_transaction_row c.db.next_tx_rowid tx bid), c.tick + 1⟩).2 with
    | false =>
      simp only [hr2, Bool.false_eq_true, if_false]
      exact ⟨i1, i4, i2, ⟨newi, hnewi, hmemi⟩, ⟨[], by simpa using i3, by simp⟩⟩
    | true =>
      simp only [hr2, if_true]
      obtain ⟨o1, o2, o3, o4, o5, newo, hnewo, hmemo⟩ :=
        insert_outputs_spec env c.db.next_tx_rowid tx.vout
          (insert_inputs env c.db.next_tx_rowid tx.vin
            ⟨db_add_tx c.db (mk_transaction_row c.db.next_tx_rowid tx bid), c.tick + 1⟩).1
      refine ⟨o1.trans i1, o4.trans i4, o2.trans i2,
        ⟨newi, o3.trans hnewi, hmemi⟩, ⟨newo, hnewo.trans (by rw [i3]; rfl), hmemo⟩⟩

/-- The transaction loop of `_store_block` only appends rows built by the
`mk_*` functions for members of the transaction list, all referencing the
given block rowid; the blocks table is untouched. -/
theorem store_transactions_spec (env : SqliteEnv) (bid : Nat) :
    ∀ (l : List RawTx) (c : CursorState),
      (store_transactions env bid l c).db.blocks = c.db.blocks ∧
      (store_transactions env bid l c).db.next_block_rowid = c.db.next_block_rowid ∧
      (∀ r ∈ (store_transactions env bid l c).db.transactions,
        r ∈ c.db.transactions ∨ ∃ id, ∃ tx ∈ l, r = mk_transaction_row id tx bid) ∧
      (∀ r ∈ (store_transactions env bid l c).db.inputs,
        r ∈ c.db.inputs ∨ ∃ id, ∃ tx ∈ l, ∃ vin ∈ tx.vin, r = mk_input_row id vin) ∧
      (∀ r ∈ (store_transactions env bid l c).db.outputs,
        r ∈ c.db.outputs ∨ ∃ id, ∃ tx ∈ l, ∃ v ∈ tx.vout, r = mk_output_row id v) := by
  intro l
  induction l with
  | nil =>
    intro c
    exact ⟨rfl, rfl, fun r hr => Or.inl hr, fun r hr => Or.inl hr,
      fun r hr => Or.inl hr⟩
  | cons tx rest ih =>
    intro c
    obtain ⟨j1, j2, j3, j4, j5⟩ := ih (store_transaction env tx bid c).1
    rcases store_transaction_spec env tx bid c with heq |
      ⟨s1, s2, s3, ⟨newi, hni, hmi⟩, ⟨newo, hno, hmo⟩⟩
    · refine ⟨?_, ?_, ?_, ?_, ?_⟩
      · exact j1.trans (by rw [heq])
      · exact j2.trans (by rw [heq])
      · intro r hr
        rcases j3 r hr with h | ⟨id, tx', htx', he⟩
        · rw [heq] at h
          exact Or.inl h
        · exact Or.inr ⟨id, tx', List.mem_cons_of_mem _ htx', he⟩
      · intro r hr
        rcases j4 r hr with h | ⟨id, tx', htx', rest'⟩
        · rw [heq] at h
          exact Or.inl h
        · exact Or.inr ⟨id, tx', List.mem_cons_of_mem _ htx', rest'⟩
      · intro r hr
        rcases j5 r hr with h | ⟨id, tx', htx', rest'⟩
        · rw [heq] at h
          exact Or.inl h
        · exact Or.inr ⟨id, tx', List.mem_cons_of_mem _ htx', rest'⟩
    · refine ⟨j1.trans s1, j2.trans s2, ?_, ?_, ?_⟩
      · intro r hr
        rcases j3 r hr with h | ⟨id, tx', htx', he⟩
        · rw [s3] at h
          rcases List.mem_append.mp h with h' | h'
          · exact Or.inl h'
          · exact Or.inr ⟨c.db.next_tx_rowid, tx, List.mem_cons_self _ _,
              List.mem_singleton.mp h'⟩
        · exact Or.inr ⟨id, tx', List.mem_cons_of_mem _ htx', he⟩
      · intro r hr
        rcases j4 r hr with h | ⟨id, tx', htx', rest'⟩
        · rw [hni] at h
          rcases List.mem_append.mp h with h' | h'
          · exact Or.inl h'
          · obtain ⟨vin, hvin, he⟩ := hmi r h'
            exact Or.inr ⟨c.db.next_tx_rowid, tx, List.mem_cons_self _ _,
              vin, hvin, he⟩
        · exact Or.inr ⟨id, tx', List.mem_cons_of_mem _ htx', rest'⟩
      · intro r hr
        rcases j5 r hr with h | ⟨id, tx', htx', rest'⟩
        · rw [hno] at h
          rcases List.mem_append.mp h with h' | h'
          · exact Or.inl h'
          · obtain ⟨v, hv, he⟩ := hmo r h'
            exact Or.inr ⟨c.db.next_tx_rowid, tx, List.mem_cons_self _ _,
              v, hv, he⟩
        · exact Or.inr ⟨id, tx', List.mem_cons_of_mem _ htx', rest'⟩

/-- Every row present after a `_store_block` call is either a pre-existing
row or one of the rows the mapper builds from this block's payload. -/
theorem store_block_rows (env : SqliteEnv) (b : RawBlock) (db : DB) (t : Nat) :
    (∀ r ∈ (store_block env b db t).db.blocks,
      r ∈ db.blocks ∨ r = mk_block_row db.next_block_rowid b) ∧
    (∀ r ∈ (store_block env b db t).db.transactions,
      r ∈ db.transactions ∨
        ∃ id, ∃ tx ∈ b.tx, r = mk_transaction_row id tx db.next_block_rowid) ∧
    (∀ r ∈ (store_block env b db t).db.inputs,
      r ∈ db.inputs ∨ ∃ id, ∃ tx ∈ b.tx, ∃ vin ∈ tx.vin, r = mk_input_row id vin) ∧
    (∀ r ∈ (store_block env b db t).db.outputs,
      r ∈ db.outputs ∨ ∃ id, ∃ tx ∈ b.tx, ∃ v ∈ tx.vout, r = mk_output_row id v) := by
  unfold store_block
  cases h1 : env.fails t with
  | true =>
    simp only [h1, if_true]
    exact ⟨fun r hr => Or.inl hr, fun r hr => Or.inl hr, fun r hr => Or.inl hr,
      fun r hr => Or.inl hr⟩
  | false =>
    simp only [h1, Bool.false_eq_true, if_false]
    obtain ⟨q1, q2, q3, q4, q5⟩ := store_transactions_spec env db.next_block_rowid
      b.tx ⟨db_add_block db (mk_block_row db.next_block_rowid b), t + 1⟩
    cases h2 : env.fails ((store_transactions env db.next_block_rowid b.tx
        ⟨db_add_block db (mk_block_row db.next_block_rowid b), t + 1⟩).tick) with
    | true =>
      simp only [h2, if_true]
      exact ⟨fun r hr => Or.inl hr, fun r hr => Or.inl hr, fun r hr => Or.inl hr,
        fun r hr => Or.inl hr⟩
    | false =>
      simp only [h2, Bool.false_eq_true, if_false]
      refine ⟨?_, ?_, ?_, ?_⟩
      · intro r hr
        rw [q1] at hr
        have : r ∈ db.blocks ++ [mk_block_row db.next_block_rowid b] := hr
        rcases List.mem_append.mp this with h | h
        · exact Or.inl h
        · exact Or.inr (List.mem_singleton.mp h)
      · intro r hr
        rcases q3 r hr with h | h
        · exact Or.inl h
        · exact Or.inr h
      · intro r hr
        rcases q4 r hr with h | h
        · exact Or.inl h
        · exact Or.inr h
      · intro r hr
        rcases q5 r hr with h | h
        · exact Or.inl h
        · exact Or.inr h

/-- Claim C6, amended: of the four optional fields, previous-block-hash,
next-block-hash and the output address are indeed stored as NULL when
missing (`mapped_address none = none` and the hash columns receive the raw
`Option` values); but a missing transaction fee is stored as the sentinel
integer 0 (`some 0`), which is indistinguishable from a genuine zero fee —
every stored transaction row carries `some (fee or 0)`, never NULL. -/
theorem c6_amended_optional_fields (env : SqliteEnv) (b : RawBlock) (db : DB)
    (t : Nat) :
    mapped_address none = none ∧
    (∀ r ∈ (store_block env b db t).db.blocks,
      r ∈ db.blocks ∨
        (r.previous_hash = b.previousblockhash ∧ r.next_hash = b.nextblockhash)) ∧
    (∀ r ∈ (store_block env b db t).db.transactions,
      r ∈ db.transactions ∨ ∃ tx ∈ b.tx, r.fee = some (tx.fee.getD 0)) ∧
    (∀ r ∈ (store_block env b db t).db.outputs,
      r ∈ db.outputs ∨
        ∃ tx ∈ b.tx, ∃ v ∈ tx.vout, r.address = mapped_address v.addresses) := by
  obtain ⟨hb, ht, hi, ho⟩ := store_block_rows env b db t
  refine ⟨rfl, ?_, ?_, ?_⟩
  · intro r hr
    rcases hb r hr with h | h
    · exact Or.inl h
    · subst h
      exact Or.inr ⟨rfl, rfl⟩
  · intro r hr
    rcases ht r hr with h | ⟨id, tx, htx, he⟩
    · exact Or.inl h
    · subst he
      exact Or.inr ⟨tx, htx, rfl⟩
  · intro r hr
    rcases ho r hr with h | ⟨id, tx, htx, v, hv, he⟩
    · exact Or.inl h
    · subst he
      exact Or.inr ⟨tx, htx, v, hv, rfl⟩

/-- `_store_transaction` preserves referential integrity when the block it
references exists: the set of block rowids is unchanged and the set of
transaction rowids only grows. -/
theorem store_transaction_ref (env : SqliteEnv) (tx : RawTx) (bid : Nat)
    (c : CursorState) (hbid : bid ∈ block_ids c.db) (h : ref_integrity c.db) :
    ref_integrity (store_transaction env tx bid c).1.db ∧
    block_ids (store_transaction env tx bid c).1.db = block_ids c.db ∧
    ∀ i ∈ tx_ids c.db, i ∈ tx_ids (store_transaction env tx bid c).1.db := by
  rcases store_transaction_spec env tx bid c with heq |
    ⟨s1, s2, s3, ⟨newi, hni, hmi⟩, ⟨newo, hno, hmo⟩⟩
  · rw [heq]
    exact ⟨h, rfl, fun i hi => hi⟩
  · obtain ⟨ht, hi, ho⟩ := h
    have hbids : block_ids (store_transaction env tx bid c).1.db = block_ids c.db := by
      unfold block_ids
      rw [s1]
    have htids : tx_ids (store_transaction env tx bid c).1.db
        = tx_ids c.db ++ [c.db.next_tx_rowid] := by
      unfold tx_ids
      rw [s3]
      simp [mk_transaction_row]
    refine ⟨⟨?_, ?_, ?_⟩, hbids, ?_⟩
    · intro tr htr
      rw [s3] at htr
      rw [hbids]
      rcases List.mem_append.mp htr with h' | h'
      · exact ht tr h'
      · rw [List.mem_singleton.mp h']
        exact hbid
    · intro ir hir
      rw [hni] at hir
      rw [htids]
      rcases List.mem_append.mp hir with h' | h'
      · exact List.mem_append_left _ (hi ir h')
      · obtain ⟨vin, hvin, he⟩ := hmi ir h'
        subst he
        exact List.mem_append_right _ (List.mem_singleton.mpr rfl)
    · intro orr horr
      rw [hno] at horr
      rw [htids]
      rcases List.mem_append.mp horr with h' | h'
      · exact List.mem_append_left _ (ho orr h')
      · obtain ⟨v, hv, he⟩ := hmo orr h'
        subst he
        exact List.mem_append_right _ (List.mem_singleton.mpr rfl)
    · intro i hi'
      rw [htids]
      exact List.mem_append_left _ hi'

/-- The transaction loop of `_store_block` preserves referential integrity
and the set of block rowids. -/
theorem store_transactions_ref (env : SqliteEnv) (bid : Nat) :
    ∀ (l : List RawTx) (c : CursorState), bid ∈ block_ids c.db →
      ref_integrity c.db →
      ref_integrity (store_transactions env bid l c).db ∧
      block_ids (store_transactions env bid l c).db = block_ids c.db := by
  intro l
  induction l with
  | nil => exact fun c _ h => ⟨h, rfl⟩
  | cons tx rest ih =>
    intro c hb h
    obtain ⟨h', hbeq, _⟩ := store_transaction_ref env tx bid c hb h
    obtain ⟨hres, hreq⟩ := ih (store_transaction env tx bid c).1
      (by rw [hbeq]; exact hb) h'
    exact ⟨hres, hreq.trans hbeq⟩

/-- `_store_block` preserves referential integrity of the durable store,
whether it commits or rolls back. -/
theorem store_block_ref (env : SqliteEnv) (b : RawBlock) (db : DB) (t : Nat)
    (h : ref_integrity db) : ref_integrity (store_block env b db t).db := by
  unfold store_block
  cases h1 : env.fails t with
  | true => simpa only [h1, if_true] using h
  | false =>
    simp only [h1, Bool.false_eq_true, if_false]
    cases h2 : env.fails ((store_transactions env db.next_block_rowid b.tx
        ⟨db_add_block db (mk_block_row db.next_block_rowid b), t + 1⟩).tick) with
    | true => simpa only [h2, if_true] using h
    | false =>
      simp only [h2, Bool.false_eq_true, if_false]
      have hpend : ref_integrity
          ((⟨db_add_block db (mk_block_row db.next_block_rowid b), t + 1⟩ :
            CursorState).db) := by
        obtain ⟨ht, hi, ho⟩ := h
        refine ⟨?_, fun i hi' => hi i hi', fun o ho' => ho o ho'⟩
        intro tr htr
        have hmem := ht tr htr
        show tr.block_id ∈ block_ids (db_add_block db (mk_block_row db.next_block_rowid b))
        have : block_ids (db_add_block db (mk_block_row db.next_block_rowid b))
            = block_ids db ++ [db.next_block_rowid] := by
          simp [block_ids, db_add_block, mk_block_row]
        rw [this]
        exact List.mem_append_left _ hmem
      have hbid : db.next_block_rowid ∈ block_ids
          ((⟨db_add_block db (mk_block_row db.next_block_rowid b), t + 1⟩ :
            CursorState).db) := by
        show db.next_block_rowid ∈ block_ids (db_add_block db (mk_block_row db.next_block_rowid b))
        have : block_ids (db_add_block db (mk_block_row db.next_block_rowid b))
            = block_ids db ++ [db.next_block_rowid] := by
          simp [block_ids, db_add_block, mk_block_row]
        rw [this]
        exact List.mem_append_right _ (List.mem_singleton.mpr rfl)
      exact (store_transactions_ref env db.next_block_rowid b.tx
        ⟨db_add_block db (mk_block_row db.next_block_rowid b), t + 1⟩ hbid hpend).1

/-- The sync loop preserves referential integrity of the durable store at
every step, through commits, rollbacks, pruning skips and early aborts. -/
theorem sync_loop_ref (env : SqliteEnv) (node : Node) :
    ∀ (l : List Int) (s : SyncState), ref_integrity s.db →
      ref_integrity (sync_loop env node l s).1.db := by
  intro l
  induction l with
  | nil => exact fun s h => h
  | cons h rest ih =>
    intro s hs
    cases hf : node.fetch h with
    | err msg =>
      cases hp : contains_pruned msg with
      | true =>
        simp only [sync_loop, hf, hp, if_true]
        exact ih _ hs
      | false =>
        simp only [sync_loop, hf, hp, Bool.false_eq_true, if_false]
        exact hs
    | ok b =>
      cases hsb : (store_block env b s.db s.tick).ok with
      | true =>
        simp only [sync_loop, hf, hsb, if_true]
        exact ih _ (store_block_ref env b s.db s.tick hs)
      | false =>
        simp only [sync_loop, hf, hsb, Bool.false_eq_true, if_false]
        exact store_block_ref env b s.db s.tick hs

/-- Claim C8 — status: confirmed.  After any sync pass — including passes
that abort mid-range on a fetch error or a store failure — every stored
input/output row references an existing transaction row and every stored
transaction row references an existing block row, provided the store
satisfied referential integrity before the pass. -/
theorem c8_referential_integrity (env : SqliteEnv) (node : Node)
    (s : SyncState) (h : ref_integrity s.db) :
    ref_integrity (sync_latest_blocks env node s).state.db := by
  unfold sync_latest_blocks
  cases node.blockcount with
  | error e => exact h
  | ok c =>
    dsimp only
    split
    · exact h
    · exact sync_loop_ref env node _ s h

/-- Closed witness for `c8_referential_integrity`: a full pass over the
empty store against the height-12 node. -/
theorem c8_witness :
    ref_integrity (sync_latest_blocks env_ok node12 s_fresh).state.db :=
  c8_referential_integrity env_ok node12 s_fresh
    (by
      refine ⟨?_, ?_, ?_⟩ <;> intro x hx <;> simp [s_fresh, sync_init, emptyDB] at hx)
